import Mathlib

/-!
# Verification of the VocaResume semantic task router

Shallow embedding of `src/tasks/vector_router.py` (class `VectorRouter`,
function `init_router`).  Pure data is translated directly; the external
collaborators (the chromadb client/collection and the sentence-transformer
embedding model) are modelled by explicit environments that decide whether
each external call succeeds, and by an association-list store holding the
collection's documents.  Every externally visible store operation that the
router attempts is recorded in a log of `ExtCall`s, so "the router touched
the vector store" is a statement about that log.

Python strings are modelled as `List Char`; Python floats (scores and
distances) as `ℚ`; Python dicts as association lists.
-/

namespace VocaResume

/-- The fixed routing taxonomy, source constant `TASK_LABELS`
(index, label, description). -/
def TASK_LABELS : List (Int × String × String) :=
  [(0, "analysis", "Comprehensive resume analysis vs job description with strengths, gaps, recommendations."),
   (1, "interview", "Generate technical interview questions based on resume content and experience."),
   (2, "suggestions", "Provide actionable resume improvement and optimization suggestions."),
   (3, "job_fit", "Evaluate job fit score and suitability against the provided job description.")]

/-- Document metadata as written/read by the router.  The source uses a
Python dict; only the keys `doc_type`, `task_index` and `label` are ever
read (`m.get('doc_type')`, `m.get('task_index', 0)`, `m.get('label', 'analysis')`),
the latter two possibly absent. -/
structure DocMeta where
  doc_type : String
  task_index : Option Int
  label : Option String
  deriving DecidableEq, Repr

/-- One stored document: body text plus metadata. -/
structure StoreDoc where
  body : List Char
  meta : DocMeta
  deriving DecidableEq, Repr

/-- The chroma collection's contents: id ↦ document, as an association list. -/
abbrev Store := List (List Char × StoreDoc)

/-- Insert-or-overwrite at a key: the upsert semantics of
`collection.upsert` for a single id (overwrite in place if the id exists,
append otherwise). -/
def assocSet {α β : Type} [DecidableEq α] (s : List (α × β)) (k : α) (v : β) :
    List (α × β) :=
  if s.any (fun p => decide (p.1 = k)) then
    s.map (fun p => if p.1 = k then (k, v) else p)
  else
    s ++ [(k, v)]

/-- Lookup at a key (first binding wins). -/
def assocGet {α β : Type} [DecidableEq α] (s : List (α × β)) (k : α) : Option β :=
  (s.find? (fun p => decide (p.1 = k))).map (fun p => p.2)

/-- Source `_hash`: `hashlib.sha1(text.encode()).hexdigest()[:16]`.
`hashlib.sha1` is an external library function, so the hex digest is
modelled as an abstract parameter `sha1hex`; the router-side truncation to
16 characters is kept. -/
def hashId (sha1hex : List Char → List Char) (text : List Char) : List Char :=
  (sha1hex text).take 16

/-- Abbreviation for the abstract sha1 hex digest parameter. -/
abbrev HashFn := List Char → List Char

/-- A candidate route extracted from a nearest-neighbor hit
(the dicts appended to `candidates` in `route`). -/
structure Cand where
  task_index : Int
  label : String
  score : ℚ
  deriving DecidableEq, Repr

/-- Source dataclass `RouteResult`. -/
structure RouteResult where
  task_index : Int
  label : String
  score : ℚ
  alt : List Cand
  deriving DecidableEq, Repr

/-- Router instance state: the Python instance attributes
`_fallback_keyword`, `_routing_backend`, `_warned_fallback`,
`_route_counts` and `collection` (`none` models `self.collection = None`).
The methods `routing_backend()` and `stats()` return the corresponding
attribute (their `getattr` defaults are unreachable because `__init__`
pre-initializes every attribute before any early return). -/
structure VectorRouter where
  fallback_keyword : Bool
  routing_backend : String
  warned_fallback : Bool
  route_counts : List (String × Nat)
  collection : Option Store
  deriving DecidableEq

/-- External calls the router can issue against the backing collection. -/
inductive ExtCall where
  | upsertDoc (id : List Char)
  | nnQuery (q : List Char) (k : Nat)
  deriving DecidableEq, Repr

/-- `{lbl: 0 for _, lbl, _ in TASK_LABELS}` from `__init__`. -/
def initCounts : List (String × Nat) :=
  TASK_LABELS.map (fun t => (t.2.1, 0))

/-- Source `VectorRouter._upsert` (every call site passes singleton lists,
so it is modelled for one document).  `fails` says whether the external
`collection.upsert` call raises.  If the collection attribute is `None`
the router switches to keyword mode without attempting anything; if the
upsert raises, the router warns once and switches to keyword mode; note
that the method checks only `collection is None`, not `_fallback_keyword`,
so a live collection is still written to even in fallback mode. -/
def VectorRouter.upsert1 (st : VectorRouter) (fails : Bool) (id : List Char)
    (d : StoreDoc) : VectorRouter × List ExtCall :=
  match st.collection with
  | none =>
    ({ st with fallback_keyword := true, routing_backend := "keyword" }, [])
  | some s =>
    if fails then
      ({ st with fallback_keyword := true, routing_backend := "keyword",
                 warned_fallback := true }, [ExtCall.upsertDoc id])
    else
      ({ st with collection := some (assocSet s id d) }, [ExtCall.upsertDoc id])

/-- Source `VectorRouter.ingest_resume`: no-op on falsy (empty) text, else
upsert the first 12000 characters under id `resume-<hash of full text>`. -/
def VectorRouter.ingest_resume (st : VectorRouter) (sha1hex : HashFn)
    (text : List Char) (fails : Bool) : VectorRouter × List ExtCall :=
  if text.isEmpty then (st, [])
  else
    st.upsert1 fails ("resume-".data ++ hashId sha1hex text)
      ⟨text.take 12000, ⟨"resume", none, none⟩⟩

/-- Source `VectorRouter.ingest_job_description`. -/
def VectorRouter.ingest_job_description (st : VectorRouter) (sha1hex : HashFn)
    (text : List Char) (fails : Bool) : VectorRouter × List ExtCall :=
  if text.isEmpty then (st, [])
  else
    st.upsert1 fails ("job-".data ++ hashId sha1hex text)
      ⟨text.take 12000, ⟨"job_desc", none, none⟩⟩

/-- Source `VectorRouter.add_query_history`: upsert the raw query under
id `q-<hash>`. -/
def VectorRouter.add_query_history (st : VectorRouter) (sha1hex : HashFn)
    (query : List Char) (fails : Bool) : VectorRouter × List ExtCall :=
  if query.isEmpty then (st, [])
  else
    st.upsert1 fails ("q-".data ++ hashId sha1hex query)
      ⟨query, ⟨"query", none, none⟩⟩

/-- The task-label document upserted by `ensure_task_labels`
(body `f"{label}: {desc}"`, metadata with `doc_type`, `task_index`, `label`). -/
def taskLabelDoc (idx : Int) (label desc : String) : StoreDoc :=
  ⟨(label ++ ": " ++ desc).data, ⟨"task_label", some idx, some label⟩⟩

/-- The `for idx, label, desc in TASK_LABELS` loop of `ensure_task_labels`:
one `_upsert` per entry, threading the upsert-outcome counter `n`. -/
def upsertLabelLoop (uFail : Nat → Bool) :
    VectorRouter → Nat → List (Int × String × String) →
    VectorRouter × Nat × List ExtCall
  | st, n, [] => (st, n, [])
  | st, n, (idx, label, desc) :: rest =>
    let p := st.upsert1 (uFail n)
      (("task-" ++ toString idx ++ "-" ++ label).data) (taskLabelDoc idx label desc)
    let q := upsertLabelLoop uFail p.1 (n + 1) rest
    (q.1, q.2.1, p.2 ++ q.2.2)

/-- Source `VectorRouter.ensure_task_labels`: no-op when already in
keyword fallback, else upsert all four task-label documents. -/
def VectorRouter.ensure_task_labels (st : VectorRouter) (uFail : Nat → Bool)
    (n : Nat) : VectorRouter × Nat × List ExtCall :=
  if st.fallback_keyword then (st, n, [])
  else upsertLabelLoop uFail st n TASK_LABELS

/-- `needle` is a (contiguous) starting segment of `hay`. -/
def startsWithCh : List Char → List Char → Bool
  | _, [] => true
  | [], _ :: _ => false
  | c :: t, d :: u => decide (c = d) && startsWithCh t u

/-- Python substring containment `needle in hay` on character lists. -/
def hasSub (hay needle : List Char) : Bool :=
  if startsWithCh hay needle then true
  else
    match hay with
    | [] => false
    | _ :: t => hasSub t needle

/-- `any(w in q for w in ws)`. -/
def kwHit (q : List Char) (ws : List String) : Bool :=
  ws.any (fun w => hasSub q w.data)

/-- `self._route_counts[l] += 1` and
`self._route_counts[l] = self._route_counts.get(l, 0) + 1`.  (The `+=`
form requires the key to be present, which holds in every reachable state
since `__init__` seeds all four labels; when the key is present both dict
updates coincide with this definition.) -/
def bumpLabel (d : List (String × Nat)) (k : String) : List (String × Nat) :=
  assocSet d k (((assocGet d k).getD 0) + 1)

/-- The keyword-heuristic branch of `route` (source lines 211-223):
lowercase the query, test the three keyword groups in priority order by
substring containment, bump the matched label's counter and return a
fixed score of 0.5 with no alternatives. -/
def VectorRouter.routeKw (st : VectorRouter) (query : List Char) :
    VectorRouter × RouteResult :=
  let q := query.map Char.toLower
  if kwHit q ["interview", "question"] then
    ({ st with route_counts := bumpLabel st.route_counts "interview" },
     ⟨1, "interview", 1/2, []⟩)
  else if kwHit q ["suggest", "improve", "optimiz"] then
    ({ st with route_counts := bumpLabel st.route_counts "suggestions" },
     ⟨2, "suggestions", 1/2, []⟩)
  else if kwHit q ["fit", "score", "match"] then
    ({ st with route_counts := bumpLabel st.route_counts "job_fit" },
     ⟨3, "job_fit", 1/2, []⟩)
  else
    ({ st with route_counts := bumpLabel st.route_counts "analysis" },
     ⟨0, "analysis", 1/2, []⟩)

/-- One nearest-neighbor hit as unpacked from the query response
(`zip(ids, metas, dists)`; the id is unused by the processing loop).
`meta = none` models falsy metadata (skipped by `if not m: continue`);
`dist = none` models a non-numeric distance entry (scored 0.0 by the
`isinstance` guard). -/
structure QueryHit where
  meta : Option DocMeta
  dist : Option ℚ
  deriving DecidableEq, Repr

/-- `score = 1 - d if isinstance(d, (int, float)) else 0.0`. -/
def candScore (d : Option ℚ) : ℚ :=
  match d with
  | some x => 1 - x
  | none => 0

/-- The candidate-building loop of `route` (source lines 245-255): skip
falsy metadata, keep only `doc_type == 'task_label'` hits, score each by
`1 - distance` with the source's metadata defaults. -/
def mkCandidates (hits : List QueryHit) : List Cand :=
  hits.filterMap (fun h =>
    match h.meta with
    | none => none
    | some m =>
      if m.doc_type = "task_label" then
        some ⟨m.task_index.getD 0, m.label.getD "analysis", candScore h.dist⟩
      else none)

/-- Descending-score comparator for `candidates.sort(key=score, reverse=True)`
(a stable sort, like Python's). -/
def scoreGe (a b : Cand) : Bool := decide (b.score ≤ a.score)

/-- Environment for one `route` call: whether the n-th external upsert
attempted during the call raises, and the outcome of `collection.query`
(`error` = the query raised, `ok hits` = the nearest-neighbor response). -/
structure RouteEnv where
  uFail : Nat → Bool
  qRes : Except Unit (List QueryHit)

/-- Source `VectorRouter.route`.  Returns the successor state, the log of
external store operations attempted during the call, and the result.
The source's two `return self.route(query, k)` retries (collection gone /
query raised) re-enter `route` with `_fallback_keyword` freshly set, hence
land in the keyword branch; the model calls `routeKw` directly. -/
def VectorRouter.route (st : VectorRouter) (sha1hex : HashFn) (env : RouteEnv)
    (query : List Char) (k : Nat := 4) :
    VectorRouter × List ExtCall × RouteResult :=
  if query.isEmpty then (st, [], ⟨0, "analysis", 0, []⟩)
  else if st.fallback_keyword then
    let p := st.routeKw query
    (p.1, [], p.2)
  else
    let e := st.ensure_task_labels env.uFail 0
    match e.1.collection with
    | none =>
      let p := ({ e.1 with fallback_keyword := true,
                           routing_backend := "keyword" } : VectorRouter).routeKw query
      (p.1, e.2.2, p.2)
    | some _ =>
      match env.qRes with
      | Except.error _ =>
        let p := ({ e.1 with fallback_keyword := true, routing_backend := "keyword",
                             warned_fallback := true } : VectorRouter).routeKw query
        (p.1, e.2.2 ++ [ExtCall.nnQuery query k], p.2)
      | Except.ok hits =>
        match (mkCandidates hits).mergeSort scoreGe with
        | [] =>
          ({ e.1 with route_counts := bumpLabel e.1.route_counts "analysis" },
           e.2.2 ++ [ExtCall.nnQuery query k], ⟨0, "analysis", 0, []⟩)
        | top :: alt =>
          let h := e.1.add_query_history sha1hex query (env.uFail e.2.1)
          ({ h.1 with route_counts := bumpLabel h.1.route_counts top.label },
           e.2.2 ++ [ExtCall.nnQuery query k] ++ h.2,
           ⟨top.task_index, top.label, top.score, alt⟩)

/-- Source `VectorRouter.stats`: a copy of `_route_counts`. -/
def VectorRouter.stats (st : VectorRouter) : List (String × Nat) :=
  st.route_counts

/-- Classification of the exception raised by collection get/create
(`__init__` lines 142-165 branch on the exception's message text). -/
structure CollErr where
  hasTypeTenant : Bool
  hasConflictName : Bool
  deriving DecidableEq, Repr

/-- Environment for `__init__` / `init_router`: whether chromadb could be
imported; whether the Persistent/Ephemeral client chain produced a
client (both constructors failing means `clientObtained = false`); the
outcome of collection get/create (`ok s` carries the pre-existing or
freshly created contents); and the outcomes of the two repair attempts
(the alternate in-memory client for `_type`/`tenant` errors, and
delete-and-recreate for `conflict`/`name` errors).  The embedding-function
ladder (lines 96-131) never raises and does not influence the state
modelled here, so it has no environment field. -/
structure InitEnv where
  chromaAvailable : Bool
  clientObtained : Bool
  collOutcome : Except CollErr Store
  altClientOk : Bool
  recreateOk : Bool

/-- The instance returned by the early-return fallback paths of `__init__`
(collection `None`, keyword mode; `_route_counts` pre-seeded). -/
def stubRouter : VectorRouter :=
  { fallback_keyword := true, routing_backend := "keyword",
    warned_fallback := false, route_counts := initCounts,
    collection := none }

/-- The instance produced when client and collection are both set up
(lines 167-168: `_fallback_keyword = False`, backend `"chroma"`). -/
def activeRouter (s : Store) : VectorRouter :=
  { fallback_keyword := false, routing_backend := "chroma",
    warned_fallback := false, route_counts := initCounts,
    collection := some s }

/-- Source `init_router` / `VectorRouter.__init__`.  `Except.error` models
the RuntimeErrors the constructor raises; `.ok` carries the constructed
instance.  Control flow of lines 68-168: missing chromadb raises; a fully
failed client chain returns a keyword stub; on a collection error the
`_type`/`tenant` branch may return a stub, after which the same exception
text is tested for `conflict`/`name` (delete-and-recreate, raising on
failure) and any other text raises. -/
def init_router (env : InitEnv) : Except String VectorRouter :=
  if !env.chromaAvailable then
    Except.error "Chroma not installed; ensure requirements updated."
  else if !env.clientObtained then
    Except.ok stubRouter
  else
    match env.collOutcome with
    | Except.ok s => Except.ok (activeRouter s)
    | Except.error e =>
      if e.hasTypeTenant && !env.altClientOk then Except.ok stubRouter
      else if e.hasConflictName then
        if env.recreateOk then Except.ok (activeRouter [])
        else Except.error "Failed to recreate collection"
      else Except.error "Failed to get/create collection"

/-- A router that entered keyword fallback after an operational failure
(e.g. a raising `collection.query`): `_fallback_keyword` is set but the
collection attribute still holds a live collection object. -/
def fbLiveRouter : VectorRouter :=
  { fallback_keyword := true, routing_backend := "keyword",
    warned_fallback := true, route_counts := initCounts,
    collection := some [] }

/-- A call against the router's public surface, packaged with the external
outcomes for that call (the observers `stats` / `routing_backend` do not
mutate and are included for completeness). -/
inductive Op where
  | opIngestResume (text : List Char) (fails : Bool)
  | opIngestJob (text : List Char) (fails : Bool)
  | opAddQuery (q : List Char) (fails : Bool)
  | opEnsureLabels (uFail : Nat → Bool)
  | opRoute (q : List Char) (uFail : Nat → Bool)
      (qRes : Except Unit (List QueryHit)) (k : Nat)
  | opStats
  | opBackend

/-- State transition of one public call. -/
def stepOp (sha1hex : HashFn) (st : VectorRouter) : Op → VectorRouter
  | Op.opIngestResume t f => (st.ingest_resume sha1hex t f).1
  | Op.opIngestJob t f => (st.ingest_job_description sha1hex t f).1
  | Op.opAddQuery q f => (st.add_query_history sha1hex q f).1
  | Op.opEnsureLabels u => (st.ensure_task_labels u 0).1
  | Op.opRoute q u r k => (st.route sha1hex ⟨u, r⟩ q k).1
  | Op.opStats => st
  | Op.opBackend => st

/-- Run a sequence of public calls. -/
def runOps (sha1hex : HashFn) (st : VectorRouter) (ops : List Op) : VectorRouter :=
  ops.foldl (stepOp sha1hex) st

/-- Sum of all per-label counters (what `sum(stats().values())` computes). -/
def sumCounts (d : List (String × Nat)) : Nat :=
  (d.map Prod.snd).sum

/-- Whether a call is a `route` call with a non-empty query. -/
def isRouteOp (o : Op) : Bool :=
  match o with
  | Op.opRoute q _ _ _ => !q.isEmpty
  | _ => false

/-- Number of `route` calls with a non-empty query in a call sequence. -/
def routeCount (ops : List Op) : Nat :=
  ops.countP isRouteOp

/-- A `_route_counts` dict is well-formed: duplicate-free keys including
the four canonical labels (established by `__init__`, preserved by every
operation). -/
def CountsWF (d : List (String × Nat)) : Prop :=
  (d.map Prod.fst).Nodup ∧
  "analysis" ∈ d.map Prod.fst ∧
  "interview" ∈ d.map Prod.fst ∧
  "suggestions" ∈ d.map Prod.fst ∧
  "job_fit" ∈ d.map Prod.fst

/-- The router's `_route_counts` dict is well-formed. -/
def CountsOK (st : VectorRouter) : Prop :=
  CountsWF st.route_counts

/-- Metadata is well-formed for routing: a task-label document carries a
task index in the canonical range. -/
def MetaOK (m : DocMeta) : Prop :=
  m.doc_type = "task_label" → m.task_index.getD 0 ∈ ({0, 1, 2, 3} : Finset Int)

/-- Every document of a store has well-formed metadata. -/
def StoreWF (s : Store) : Prop :=
  ∀ p ∈ s, MetaOK p.2.meta

/-- A query response is well-formed when every returned hit carries
well-formed metadata (true of responses drawn from a well-formed store). -/
def HitsOK (r : Except Unit (List QueryHit)) : Prop :=
  ∀ hits, r = Except.ok hits → ∀ h ∈ hits, ∀ m, h.meta = some m → MetaOK m

/-- The router's collection, if present, is well-formed. -/
def RouterWF (st : VectorRouter) : Prop :=
  ∀ s, st.collection = some s → StoreWF s

/-- Maximal alphanumeric words of a character list (accumulator holds the
current word reversed). -/
def wordsOfAux : List Char → List Char → List (List Char)
  | [], acc => if acc.isEmpty then [] else [acc.reverse]
  | c :: t, acc =>
    if c.isAlphanum then wordsOfAux t (c :: acc)
    else if acc.isEmpty then wordsOfAux t [] else acc.reverse :: wordsOfAux t []

/-- Maximal alphanumeric words of a character list. -/
def wordsOf (q : List Char) : List (List Char) := wordsOfAux q []

/-- Modelled from the spec: a "deterministic word-boundary matcher" — a
keyword counts as matched only when it occurs at word boundaries, i.e.
equals one of the maximal alphanumeric words of the lowercased query. -/
def specWordHit (q : List Char) (ws : List String) : Bool :=
  ws.any (fun w => (wordsOf q).any (fun v => decide (v = w.data)))

/-- Modelled from the spec: the reference keyword classifier of claim C5 —
word-boundary matching, fixed priority order interview/question, then
suggest/improve/optimiz, then fit/score/match, else analysis. -/
def spec_keyword_route (query : List Char) : Int × String :=
  let q := query.map Char.toLower
  if specWordHit q ["interview", "question"] then (1, "interview")
  else if specWordHit q ["suggest", "improve", "optimiz"] then (2, "suggestions")
  else if specWordHit q ["fit", "score", "match"] then (3, "job_fit")
  else (0, "analysis")

/-- The amended reference keyword classifier: identical priority order and
fixed 0.5 score, but keywords are matched by case-insensitive substring
containment (Python `w in q`), not at word boundaries. -/
def sub_keyword_route (query : List Char) : RouteResult :=
  let q := query.map Char.toLower
  if kwHit q ["interview", "question"] then ⟨1, "interview", 1/2, []⟩
  else if kwHit q ["suggest", "improve", "optimiz"] then ⟨2, "suggestions", 1/2, []⟩
  else if kwHit q ["fit", "score", "match"] then ⟨3, "job_fit", 1/2, []⟩
  else ⟨0, "analysis", 1/2, []⟩

/-- Following the spec's words for the vector path: "filter results to
only those whose metadata marks them as task-label documents" and "convert
each candidate's distance to a similarity score via `score = 1 - distance`"
(with the source's defaults for missing index/label fields). -/
def spec_candidates (hits : List QueryHit) : List Cand :=
  (hits.filter (fun h =>
      match h.meta with
      | none => false
      | some m => decide (m.doc_type = "task_label"))).map
    (fun h =>
      match h.meta with
      | none => ⟨0, "analysis", candScore h.dist⟩
      | some m => ⟨m.task_index.getD 0, m.label.getD "analysis", candScore h.dist⟩)

/-- A concrete nearest-neighbor response used to exercise the vector
path: one task-label hit and one resume hit (the latter must be filtered
out), with non-numeric distances (scored 0.0 by the `isinstance` guard). -/
def wHits : List QueryHit :=
  [⟨some ⟨"task_label", some 3, some "job_fit"⟩, none⟩,
   ⟨some ⟨"resume", none, none⟩, none⟩]

/-! ## Association-list lemmas -/

theorem assoc_any_iff {α β : Type} [DecidableEq α] (s : List (α × β)) (k : α) :
    s.any (fun p => decide (p.1 = k)) = true ↔ k ∈ s.map Prod.fst := by
  simp only [List.any_eq_true, decide_eq_true_eq, List.mem_map]

theorem assocSet_of_any {α β : Type} [DecidableEq α] (s : List (α × β)) (k : α)
    (v : β) (h : s.any (fun p => decide (p.1 = k)) = true) :
    assocSet s k v = s.map (fun p => if p.1 = k then (k, v) else p) := by
  unfold assocSet; rw [if_pos h]

theorem assocSet_of_not_any {α β : Type} [DecidableEq α] (s : List (α × β)) (k : α)
    (v : β) (h : s.any (fun p => decide (p.1 = k)) = false) :
    assocSet s k v = s ++ [(k, v)] := by
  unfold assocSet; rw [if_neg (by simp [h])]

theorem assocSet_entry_eq {α β : Type} [DecidableEq α] (s : List (α × β)) (k : α)
    (v : β) : ∀ p ∈ assocSet s k v, p.1 = k → p = (k, v) := by
  intro p hp hpk
  by_cases h : s.any (fun p => decide (p.1 = k)) = true
  · rw [assocSet_of_any s k v h] at hp
    rcases List.mem_map.mp hp with ⟨q, _, rfl⟩
    by_cases hq : q.1 = k
    · simp [hq]
    · rw [if_neg hq] at hpk ⊢
      exact absurd hpk hq
  · rw [assocSet_of_not_any s k v (Bool.eq_false_iff.mpr h)] at hp
    rcases List.mem_append.mp hp with hps | hps
    · have := List.any_eq_false.mp (Bool.eq_false_iff.mpr h) p hps
      exact absurd hpk (by simpa using this)
    · simpa using hps

theorem map_replace_id {α β : Type} [DecidableEq α] (s : List (α × β)) (k : α)
    (v : β) (h : ∀ p ∈ s, p.1 = k → p = (k, v)) :
    s.map (fun p => if p.1 = k then (k, v) else p) = s := by
  induction s with
  | nil => rfl
  | cons a t ih =>
    simp only [List.map_cons]
    have ht : t.map (fun p => if p.1 = k then (k, v) else p) = t :=
      ih (fun p hp => h p (List.mem_cons_of_mem a hp))
    by_cases ha : a.1 = k
    · rw [if_pos ha, ht, ← h a (List.mem_cons_self a t) ha]
    · rw [if_neg ha, ht]

theorem assocSet_any_self {α β : Type} [DecidableEq α] (s : List (α × β)) (k : α)
    (v : β) : (assocSet s k v).any (fun p => decide (p.1 = k)) = true := by
  unfold assocSet
  by_cases h : s.any (fun p => decide (p.1 = k)) = true
  · rw [if_pos h]
    rcases List.any_eq_true.mp h with ⟨p, hp, hpk⟩
    refine List.any_eq_true.mpr ⟨(k, v), List.mem_map.mpr ⟨p, hp, ?_⟩, by simp⟩
    simp [decide_eq_true_eq.mp hpk]
  · rw [if_neg h]
    exact List.any_eq_true.mpr ⟨(k, v), List.mem_append_right _ (by simp), by simp⟩

theorem assocSet_idem {α β : Type} [DecidableEq α] (s : List (α × β)) (k : α)
    (v : β) : assocSet (assocSet s k v) k v = assocSet s k v := by
  rw [assocSet_of_any (assocSet s k v) k v (assocSet_any_self s k v)]
  exact map_replace_id _ k v (assocSet_entry_eq s k v)

theorem find_map_replace {α β : Type} [DecidableEq α] (s : List (α × β)) (k : α)
    (v : β) (h : s.any (fun p => decide (p.1 = k)) = true) :
    (s.map (fun p => if p.1 = k then (k, v) else p)).find?
      (fun p => decide (p.1 = k)) = some (k, v) := by
  induction s with
  | nil => simp at h
  | cons a t ih =>
    simp only [List.map_cons]
    by_cases ha : a.1 = k
    · simp [List.find?_cons, ha]
    · have ht : t.any (fun p => decide (p.1 = k)) = true := by
        simp only [List.any_cons, Bool.or_eq_true] at h
        rcases h with h | h
        · exact absurd (decide_eq_true_eq.mp h) ha
        · exact h
      simp [List.find?_cons, ha, ih ht]

theorem find_append_single {α β : Type} [DecidableEq α] (s : List (α × β)) (k : α)
    (v : β) (h : s.any (fun p => decide (p.1 = k)) = false) :
    (s ++ [(k, v)]).find? (fun p => decide (p.1 = k)) = some (k, v) := by
  induction s with
  | nil => simp [List.find?_cons]
  | cons a t ih =>
    simp only [List.any_cons, Bool.or_eq_false_iff] at h
    have ha : ¬(a.1 = k) := by simpa using h.1
    simpa [List.find?_cons, ha] using ih h.2

theorem assocGet_assocSet_self {α β : Type} [DecidableEq α] (s : List (α × β))
    (k : α) (v : β) : assocGet (assocSet s k v) k = some v := by
  by_cases h : s.any (fun p => decide (p.1 = k)) = true
  · rw [assocSet_of_any s k v h]
    unfold assocGet
    rw [find_map_replace s k v h]
    rfl
  · rw [assocSet_of_not_any s k v (Bool.eq_false_iff.mpr h)]
    unfold assocGet
    rw [find_append_single s k v (Bool.eq_false_iff.mpr h)]
    rfl

theorem find_map_replace_ne {α β : Type} [DecidableEq α] (s : List (α × β))
    (k k' : α) (v : β) (hne : k' ≠ k) :
    (s.map (fun p => if p.1 = k then (k, v) else p)).find?
      (fun p => decide (p.1 = k')) = s.find? (fun p => decide (p.1 = k')) := by
  induction s with
  | nil => rfl
  | cons a t ih =>
    simp only [List.map_cons, List.find?_cons]
    by_cases ha : a.1 = k
    · have h1 : decide (((k, v) : α × β).1 = k') = false :=
        decide_eq_false (fun hk => hne hk.symm)
      have h2 : decide (a.1 = k') = false :=
        decide_eq_false (fun hk => hne (hk.symm.trans ha))
      rw [if_pos ha, h1, h2]
      exact ih
    · rw [if_neg ha]
      cases hak : decide (a.1 = k') with
      | false => exact ih
      | true => rfl

theorem find_append_single_ne {α β : Type} [DecidableEq α] (s : List (α × β))
    (k k' : α) (v : β) (hne : k' ≠ k) :
    (s ++ [(k, v)]).find? (fun p => decide (p.1 = k')) =
      s.find? (fun p => decide (p.1 = k')) := by
  induction s with
  | nil =>
    have h1 : ¬(k = k') := fun hk => hne hk.symm
    simp [List.find?_cons, h1]
  | cons a t ih =>
    by_cases hak : a.1 = k'
    · simp [List.find?_cons, hak]
    · simp [List.find?_cons, hak, ih]

theorem assocGet_assocSet_ne {α β : Type} [DecidableEq α] (s : List (α × β))
    (k k' : α) (v : β) (hne : k' ≠ k) :
    assocGet (assocSet s k v) k' = assocGet s k' := by
  by_cases h : s.any (fun p => decide (p.1 = k)) = true
  · rw [assocSet_of_any s k v h]
    unfold assocGet
    rw [find_map_replace_ne s k k' v hne]
  · rw [assocSet_of_not_any s k v (Bool.eq_false_iff.mpr h)]
    unfold assocGet
    rw [find_append_single_ne s k k' v hne]

/-! ## Basic router lemmas -/

theorem upsert1_idem (st : VectorRouter) (f : Bool) (id : List Char) (d : StoreDoc) :
    (st.upsert1 f id d).1.upsert1 f id d = st.upsert1 f id d := by
  unfold VectorRouter.upsert1
  cases hc : st.collection with
  | none => simp
  | some s =>
    cases f with
    | true => simp
    | false => simp [assocSet_idem]

/-- The keyword branch of `route` computes exactly the substring reference
classifier and bumps that label's counter. -/
theorem routeKw_spec (st : VectorRouter) (q : List Char) :
    st.routeKw q =
      ({ st with route_counts := bumpLabel st.route_counts (sub_keyword_route q).label },
       sub_keyword_route q) := by
  unfold VectorRouter.routeKw sub_keyword_route
  by_cases h1 : kwHit (q.map Char.toLower) ["interview", "question"] = true
  · simp [h1]
  · by_cases h2 : kwHit (q.map Char.toLower) ["suggest", "improve", "optimiz"] = true
    · simp [h1, h2]
    · by_cases h3 : kwHit (q.map Char.toLower) ["fit", "score", "match"] = true
      · simp [h1, h2, h3]
      · simp [h1, h2, h3]

theorem routeKw_backend (st : VectorRouter) (q : List Char) :
    (st.routeKw q).1.routing_backend = st.routing_backend := by
  rw [routeKw_spec]

theorem upsert1_backend (st : VectorRouter) (f : Bool) (id : List Char)
    (d : StoreDoc) (h : st.routing_backend = "keyword") :
    (st.upsert1 f id d).1.routing_backend = "keyword" := by
  unfold VectorRouter.upsert1
  cases st.collection <;> cases f <;> simp [h]

theorem ingestR_backend (st : VectorRouter) (sha1hex : HashFn) (t : List Char)
    (f : Bool) (h : st.routing_backend = "keyword") :
    (st.ingest_resume sha1hex t f).1.routing_backend = "keyword" := by
  unfold VectorRouter.ingest_resume
  by_cases he : t.isEmpty = true
  · simp [he, h]
  · simp only [he, if_false]
    exact upsert1_backend _ _ _ _ h

theorem ingestJ_backend (st : VectorRouter) (sha1hex : HashFn) (t : List Char)
    (f : Bool) (h : st.routing_backend = "keyword") :
    (st.ingest_job_description sha1hex t f).1.routing_backend = "keyword" := by
  unfold VectorRouter.ingest_job_description
  by_cases he : t.isEmpty = true
  · simp [he, h]
  · simp only [he, if_false]
    exact upsert1_backend _ _ _ _ h

theorem addQ_backend (st : VectorRouter) (sha1hex : HashFn) (q : List Char)
    (f : Bool) (h : st.routing_backend = "keyword") :
    (st.add_query_history sha1hex q f).1.routing_backend = "keyword" := by
  unfold VectorRouter.add_query_history
  by_cases he : q.isEmpty = true
  · simp [he, h]
  · simp only [he, if_false]
    exact upsert1_backend _ _ _ _ h

theorem upsertLabelLoop_backend (uFail : Nat → Bool)
    (ls : List (Int × String × String)) :
    ∀ st n, st.routing_backend = "keyword" →
      (upsertLabelLoop uFail st n ls).1.routing_backend = "keyword" := by
  induction ls with
  | nil => intro st n h; exact h
  | cons a rest ih =>
    intro st n h
    obtain ⟨idx, label, desc⟩ := a
    simp only [upsertLabelLoop]
    exact ih _ _ (upsert1_backend _ _ _ _ h)

theorem ensure_backend (st : VectorRouter) (uFail : Nat → Bool) (n : Nat)
    (h : st.routing_backend = "keyword") :
    (st.ensure_task_labels uFail n).1.routing_backend = "keyword" := by
  unfold VectorRouter.ensure_task_labels
  by_cases hf : st.fallback_keyword = true
  · simp [hf, h]
  · simp only [hf, if_false]
    exact upsertLabelLoop_backend uFail TASK_LABELS st n h

theorem route_backend (st : VectorRouter) (sha1hex : HashFn) (env : RouteEnv)
    (q : List Char) (k : Nat) (h : st.routing_backend = "keyword") :
    (st.route sha1hex env q k).1.routing_backend = "keyword" := by
  unfold VectorRouter.route
  by_cases hq : q.isEmpty = true
  · simp [hq, h]
  · rw [if_neg hq]
    by_cases hf : st.fallback_keyword = true
    · rw [if_pos hf]
      simp [routeKw_spec, h]
    · rw [if_neg hf]
      set e := st.ensure_task_labels env.uFail 0 with hE
      have he : e.1.routing_backend = "keyword" := ensure_backend st env.uFail 0 h
      cases hc : e.1.collection with
      | none => simp [routeKw_spec, hc]
      | some s =>
        cases hr : env.qRes with
        | error u => simp [routeKw_spec, hc, hr]
        | ok hits =>
          cases hm : (mkCandidates hits).mergeSort scoreGe with
          | nil => simpa [hc, hr, hm] using he
          | cons top alt =>
            simpa [hc, hr, hm] using addQ_backend e.1 sha1hex q (env.uFail e.2.1) he

theorem stepOp_backend (sha1hex : HashFn) (st : VectorRouter) (op : Op)
    (h : st.routing_backend = "keyword") :
    (stepOp sha1hex st op).routing_backend = "keyword" := by
  cases op with
  | opIngestResume t f => exact ingestR_backend st sha1hex t f h
  | opIngestJob t f => exact ingestJ_backend st sha1hex t f h
  | opAddQuery q f => exact addQ_backend st sha1hex q f h
  | opEnsureLabels u => exact ensure_backend st u 0 h
  | opRoute q u r k => exact route_backend st sha1hex ⟨u, r⟩ q k h
  | opStats => exact h
  | opBackend => exact h

/-! ## Claim C8 -/

/-- C8: ingestion is idempotent — re-ingesting identical text performs an
upsert under the same content-derived id, so the second call reproduces
exactly the state (store included) and the external-call log of the first
call, for both `ingest_resume` and `ingest_job_description`. -/
theorem ingest_idempotent (sha1hex : HashFn) (st : VectorRouter) (t : List Char)
    (f : Bool) :
    (st.ingest_resume sha1hex t f).1.ingest_resume sha1hex t f
        = st.ingest_resume sha1hex t f ∧
    (st.ingest_job_description sha1hex t f).1.ingest_job_description sha1hex t f
        = st.ingest_job_description sha1hex t f := by
  constructor
  · unfold VectorRouter.ingest_resume
    by_cases he : t.isEmpty = true
    · simp [he]
    · simp only [he, if_false]
      exact upsert1_idem st f _ _
  · unfold VectorRouter.ingest_job_description
    by_cases he : t.isEmpty = true
    · simp [he]
    · simp only [he, if_false]
      exact upsert1_idem st f _ _

/-! ## Claim C3 -/

/-- C3: fallback is monotone and one-way — if `routing_backend()` reports
the keyword state, it still reports the keyword state after any sequence
of public calls (ingest, history, ensure-labels, route, stats,
routing_backend), for any external outcomes. -/
theorem fallback_monotone (sha1hex : HashFn) (st : VectorRouter) (ops : List Op)
    (h : st.routing_backend = "keyword") :
    (runOps sha1hex st ops).routing_backend = "keyword" := by
  induction ops generalizing st with
  | nil => exact h
  | cons o rest ih =>
    simp only [runOps, List.foldl_cons]
    exact ih _ (stepOp_backend sha1hex st o h)

/-- Witness for C3 at a concrete fallback instance and call sequence. -/
theorem fallback_monotone_witness :
    stubRouter.routing_backend = "keyword" ∧
    (runOps (fun _ => []) stubRouter
      [Op.opIngestResume "abc".data false,
       Op.opRoute "fit score".data (fun _ => false) (Except.error ()) 4,
       Op.opBackend]).routing_backend = "keyword" :=
  ⟨rfl, fallback_monotone (fun _ => []) stubRouter _ rfl⟩

/-! ## Claim C2 -/

/-- C2 counterexample: on a keyword-fallback instance, `route("   ")` is
not short-circuited (the source tests Python falsiness, not blankness):
it returns score 0.5 rather than 0.0 and increments the `analysis`
counter, so the whitespace-only half of the claim is false. -/
theorem route_blank_not_default :
    (stubRouter.route (fun _ => []) ⟨fun _ => false, Except.ok []⟩ "   ".data 4).2.2.score
        = 1/2 ∧
    ¬((stubRouter.route (fun _ => []) ⟨fun _ => false, Except.ok []⟩ "   ".data 4).2.2.score
        = 0) ∧
    ¬((stubRouter.route (fun _ => []) ⟨fun _ => false, Except.ok []⟩ "   ".data 4).1.route_counts
        = stubRouter.route_counts) := by
  have h1 : (stubRouter.route (fun _ => []) ⟨fun _ => false, Except.ok []⟩ "   ".data 4).2.2
      = ⟨0, "analysis", 1/2, []⟩ := rfl
  have h2 : (stubRouter.route (fun _ => []) ⟨fun _ => false, Except.ok []⟩ "   ".data 4).1.route_counts
      = [("analysis", 1), ("interview", 0), ("suggestions", 0), ("job_fit", 0)] := rfl
  refine ⟨by rw [h1], by rw [h1]; norm_num, by rw [h2]; decide⟩

/-- C2 corrected: only the genuinely empty query returns the default
result `(0, "analysis", 0.0, [])` and leaves the state and store
untouched; a whitespace-only query such as `"   "` is routed like any
other non-empty query — in keyword mode it returns
`(0, "analysis", 0.5, [])` and increments the `analysis` counter. -/
theorem route_empty_default (sha1hex : HashFn) (st : VectorRouter)
    (env : RouteEnv) (k : Nat) :
    st.route sha1hex env [] k = (st, [], ⟨0, "analysis", 0, []⟩) ∧
    (st.fallback_keyword = true →
      (st.route sha1hex env "   ".data k).2.2 = ⟨0, "analysis", 1/2, []⟩ ∧
      (st.route sha1hex env "   ".data k).1
        = { st with route_counts := bumpLabel st.route_counts "analysis" }) := by
  constructor
  · simp [VectorRouter.route]
  · intro hf
    have hl : sub_keyword_route "   ".data = ⟨0, "analysis", 1/2, []⟩ := rfl
    unfold VectorRouter.route
    rw [if_neg (by decide : ¬(("   ".data : List Char).isEmpty = true)), if_pos hf,
        routeKw_spec, hl]
    exact ⟨rfl, rfl⟩

/-- Witness for C2 (corrected) at a concrete fallback instance. -/
theorem route_empty_default_witness :
    stubRouter.route (fun _ => []) ⟨fun _ => false, Except.ok []⟩ [] 4
        = (stubRouter, [], ⟨0, "analysis", 0, []⟩) ∧
    (stubRouter.route (fun _ => []) ⟨fun _ => false, Except.ok []⟩ "   ".data 4).2.2
        = ⟨0, "analysis", 1/2, []⟩ :=
  ⟨(route_empty_default (fun _ => []) stubRouter ⟨fun _ => false, Except.ok []⟩ 4).1,
   ((route_empty_default (fun _ => []) stubRouter ⟨fun _ => false, Except.ok []⟩ 4).2 rfl).1⟩

/-! ## Claim C4 -/

theorem upsert1_log_none (st : VectorRouter) (f : Bool) (id : List Char)
    (d : StoreDoc) (hc : st.collection = none) : (st.upsert1 f id d).2 = [] := by
  unfold VectorRouter.upsert1
  rw [hc]

/-- C4 counterexample: a router that fell back after an operational
failure still holds the collection object, and a subsequent
`ingest_resume` call re-attempts an upsert against the vector store
(`_upsert` checks only `collection is None`, not `_fallback_keyword`),
refuting "performs no operation against the vector store at all". -/
theorem fallback_ingest_touches_store :
    fbLiveRouter.fallback_keyword = true ∧
    (fbLiveRouter.ingest_resume (fun _ => []) "x".data false).2
        = [ExtCall.upsertDoc "resume-".data] ∧
    ¬((fbLiveRouter.ingest_resume (fun _ => []) "x".data false).1.collection
        = fbLiveRouter.collection) := by
  refine ⟨rfl, by decide, by decide⟩

/-- C4 corrected: once in keyword-fallback mode, `route` performs no
vector-store operation at all; `ingest_resume`, `ingest_job_description`
and `add_query_history` perform none exactly when the collection handle is
gone (`None`) — when the handle survives (fallback entered through an
operational exception) they still re-attempt an upsert. -/
theorem fallback_route_no_store (sha1hex : HashFn) (st : VectorRouter)
    (env : RouteEnv) (q t : List Char) (k : Nat) (f : Bool)
    (hf : st.fallback_keyword = true) :
    (st.route sha1hex env q k).2.1 = [] ∧
    (st.collection = none →
      (st.ingest_resume sha1hex t f).2 = [] ∧
      (st.ingest_job_description sha1hex t f).2 = [] ∧
      (st.add_query_history sha1hex t f).2 = []) := by
  constructor
  · unfold VectorRouter.route
    by_cases hq : q.isEmpty = true
    · rw [if_pos hq]
    · rw [if_neg hq, if_pos hf]
  · intro hc
    refine ⟨?_, ?_, ?_⟩
    · unfold VectorRouter.ingest_resume
      by_cases he : t.isEmpty = true
      · rw [if_pos he]
      · rw [if_neg he]
        exact upsert1_log_none st f _ _ hc
    · unfold VectorRouter.ingest_job_description
      by_cases he : t.isEmpty = true
      · rw [if_pos he]
      · rw [if_neg he]
        exact upsert1_log_none st f _ _ hc
    · unfold VectorRouter.add_query_history
      by_cases he : t.isEmpty = true
      · rw [if_pos he]
      · rw [if_neg he]
        exact upsert1_log_none st f _ _ hc

/-- Witness for C4 (corrected) at a concrete fallback instance. -/
theorem fallback_route_no_store_witness :
    (stubRouter.route (fun _ => []) ⟨fun _ => false, Except.ok []⟩ "improve".data 4).2.1
        = [] ∧
    (stubRouter.ingest_resume (fun _ => []) "abc".data false).2 = [] :=
  ⟨(fallback_route_no_store (fun _ => []) stubRouter ⟨fun _ => false, Except.ok []⟩
      "improve".data "abc".data 4 false rfl).1,
   ((fallback_route_no_store (fun _ => []) stubRouter ⟨fun _ => false, Except.ok []⟩
      "improve".data "abc".data 4 false rfl).2 rfl).1⟩

/-! ## Claim C5 -/

/-- C5 counterexample: the keyword branch matches by substring, not at
word boundaries — `"benefits"` contains `"fit"` only inside a word, yet
the code routes it to job_fit (index 3), while the claimed word-boundary
reference classifier routes it to analysis (index 0). -/
theorem keyword_not_word_boundary :
    (stubRouter.route (fun _ => []) ⟨fun _ => false, Except.ok []⟩
        "benefits".data 4).2.2.task_index = 3 ∧
    spec_keyword_route "benefits".data = (0, "analysis") := by
  refine ⟨by decide, by decide⟩

/-- C5 corrected: in keyword-fallback mode, routing a non-empty query
equals the reference substring classifier (case-insensitive containment,
priority order interview/question, then suggest/improve/optimiz, then
fit/score/match, else analysis; fixed score 0.5; empty alternatives); in
particular the claim's two examples route to interview (1) and job_fit
(3). -/
theorem keyword_route_substring (sha1hex : HashFn) (st : VectorRouter)
    (env : RouteEnv) (q : List Char) (k : Nat)
    (hf : st.fallback_keyword = true) (hq : ¬(q = [])) :
    (st.route sha1hex env q k).2.2 = sub_keyword_route q ∧
    (sub_keyword_route
        "Can you give me interview questions and also improve my resume".data).task_index
      = 1 ∧
    (sub_keyword_route "What\x27s my fit score?".data).task_index = 3 ∧
    (sub_keyword_route q).score = 1/2 ∧
    (sub_keyword_route q).alt = [] := by
  refine ⟨?_, by decide, by decide, ?_, ?_⟩
  · unfold VectorRouter.route
    rw [if_neg (fun h => hq (List.isEmpty_iff.mp h)), if_pos hf, routeKw_spec]
  · unfold sub_keyword_route
    dsimp only
    split_ifs <;> rfl
  · unfold sub_keyword_route
    dsimp only
    split_ifs <;> rfl

/-- Witness for C5 (corrected) on the claim's first example query. -/
theorem keyword_route_substring_witness :
    (stubRouter.route (fun _ => []) ⟨fun _ => false, Except.ok []⟩
        "Can you give me interview questions and also improve my resume".data 4).2.2
      = sub_keyword_route
          "Can you give me interview questions and also improve my resume".data :=
  (keyword_route_substring (fun _ => []) stubRouter ⟨fun _ => false, Except.ok []⟩
    "Can you give me interview questions and also improve my resume".data 4 rfl
    (by decide)).1

/-! ## Claim C7 -/

/-- C7 counterexample: with the chromadb import unavailable, construction
raises RuntimeError (source line 69) instead of returning a
keyword-fallback instance, so `init_router` does not "never raise". -/
theorem init_router_raises :
    init_router ⟨false, true, Except.ok [], true, true⟩
      = Except.error "Chroma not installed; ensure requirements updated." := rfl

/-- C7 corrected: when the chromadb library imports but the client chain
fails entirely, `init_router` returns (never raises) an instance that
starts in keyword-fallback mode; and every raising outcome of
construction comes from the chroma import being unavailable or from a
collection get/create failure (the unhandled message classes). -/
theorem init_router_fallback (env : InitEnv) :
    (env.chromaAvailable = true → env.clientObtained = false →
      init_router env = Except.ok stubRouter ∧
      stubRouter.fallback_keyword = true ∧
      stubRouter.routing_backend = "keyword") ∧
    (∀ msg, init_router env = Except.error msg →
      env.chromaAvailable = false ∨ ∃ e, env.collOutcome = Except.error e) := by
  constructor
  · intro h1 h2
    refine ⟨?_, rfl, rfl⟩
    simp [init_router, h1, h2]
  · intro msg hmsg
    by_cases hca : env.chromaAvailable = true
    · right
      by_cases hcl : env.clientObtained = true
      · cases hco : env.collOutcome with
        | ok s =>
          exfalso
          simp [init_router, hca, hcl, hco] at hmsg
        | error e => exact ⟨e, rfl⟩
      · exfalso
        simp only [Bool.not_eq_true] at hcl
        simp [init_router, hca, hcl] at hmsg
    · left
      simpa using hca

/-- Witness for C7 (corrected): a total client-construction failure still
yields a keyword-mode instance. -/
theorem init_router_fallback_witness :
    init_router ⟨true, false, Except.ok [], true, true⟩ = Except.ok stubRouter :=
  ((init_router_fallback ⟨true, false, Except.ok [], true, true⟩).1 rfl rfl).1

/-! ## Collection-preservation lemmas -/

theorem upsert1_collection_some (st : VectorRouter) (f : Bool) (id : List Char)
    (d : StoreDoc) (s : Store) (h : st.collection = some s) :
    ∃ s', (st.upsert1 f id d).1.collection = some s' := by
  unfold VectorRouter.upsert1
  rw [h]
  cases f with
  | true => exact ⟨s, rfl⟩
  | false => exact ⟨assocSet s id d, rfl⟩

theorem upsertLabelLoop_collection_some (uFail : Nat → Bool)
    (ls : List (Int × String × String)) :
    ∀ st n s, st.collection = some s →
      ∃ s', (upsertLabelLoop uFail st n ls).1.collection = some s' := by
  induction ls with
  | nil => intro st n s h; exact ⟨s, h⟩
  | cons a rest ih =>
    intro st n s h
    obtain ⟨idx, label, desc⟩ := a
    simp only [upsertLabelLoop]
    obtain ⟨s1, h1⟩ := upsert1_collection_some st (uFail n) _ _ s h
    exact ih _ _ s1 h1

theorem ensure_collection_some (st : VectorRouter) (uFail : Nat → Bool) (n : Nat)
    (s : Store) (h : st.collection = some s) :
    ∃ s', (st.ensure_task_labels uFail n).1.collection = some s' := by
  unfold VectorRouter.ensure_task_labels
  by_cases hf : st.fallback_keyword = true
  · rw [if_pos hf]; exact ⟨s, h⟩
  · rw [if_neg hf]; exact upsertLabelLoop_collection_some uFail TASK_LABELS st n s h

/-! ## Candidate processing lemmas -/

theorem mkCandidates_eq_spec (hits : List QueryHit) :
    mkCandidates hits = spec_candidates hits := by
  induction hits with
  | nil => rfl
  | cons h t ih =>
    unfold mkCandidates spec_candidates at ih ⊢
    cases hm : h.meta with
    | none => simp [hm, ih]
    | some m =>
      by_cases hd : m.doc_type = "task_label"
      · simp [hm, hd, ih]
      · simp [hm, hd, ih]

theorem scoreGe_trans : ∀ a b c : Cand, scoreGe a b = true → scoreGe b c = true →
    scoreGe a c = true := by
  intro a b c h1 h2
  simp only [scoreGe, decide_eq_true_eq] at h1 h2 ⊢
  exact le_trans h2 h1

theorem scoreGe_total : ∀ a b : Cand, (scoreGe a b || scoreGe b a) = true := by
  intro a b
  simp only [scoreGe, Bool.or_eq_true, decide_eq_true_eq]
  exact le_total b.score a.score

/-! ## Claim C6 -/

/-- C6: in the vector-active path, for a non-empty query whose
nearest-neighbor query returns `hits`, `route` (a) keeps exactly the hits
whose metadata marks them task-label documents — which is what the
spec-side `spec_candidates` computes, excluding resume/job-description/
history hits — and (b) scores each survivor `1 - distance`; (c) with no
surviving candidate it returns the default `(0, "analysis", 0.0, [])`;
(d) otherwise it returns a highest-scoring candidate with the remaining
candidates, in descending score order, as alternatives. -/
theorem route_vector_processing (sha1hex : HashFn) (st : VectorRouter) (s : Store)
    (uf : Nat → Bool) (hits : List QueryHit) (q : List Char) (k : Nat)
    (hcol : st.collection = some s) (hf : st.fallback_keyword = false)
    (hq : ¬(q = [])) :
    mkCandidates hits = spec_candidates hits ∧
    (mkCandidates hits = [] →
      (st.route sha1hex ⟨uf, Except.ok hits⟩ q k).2.2 = ⟨0, "analysis", 0, []⟩) ∧
    (∀ top alt, (mkCandidates hits).mergeSort scoreGe = top :: alt →
      (st.route sha1hex ⟨uf, Except.ok hits⟩ q k).2.2
        = ⟨top.task_index, top.label, top.score, alt⟩ ∧
      (top :: alt).Perm (mkCandidates hits) ∧
      alt.Pairwise (fun a b => b.score ≤ a.score) ∧
      (∀ c ∈ mkCandidates hits, c.score ≤ top.score)) := by
  have hsorted := List.sorted_mergeSort scoreGe_trans scoreGe_total (mkCandidates hits)
  have hperm := List.mergeSort_perm (mkCandidates hits) scoreGe
  refine ⟨mkCandidates_eq_spec hits, ?_, ?_⟩
  · intro hc0
    unfold VectorRouter.route
    rw [if_neg (fun h => hq (List.isEmpty_iff.mp h)), if_neg (by simp [hf])]
    set e := st.ensure_task_labels uf 0 with hE
    obtain ⟨s', hs'⟩ := ensure_collection_some st uf 0 s hcol
    rw [← hE] at hs'
    simp only [hs', hc0, List.mergeSort_nil]
  · intro top alt hm
    have hperm' : (top :: alt).Perm (mkCandidates hits) := hm ▸ hperm
    have hsorted' : (top :: alt).Pairwise (fun a b : Cand => scoreGe a b = true) :=
      hm ▸ hsorted
    have haltSorted : alt.Pairwise (fun a b : Cand => b.score ≤ a.score) := by
      have := (List.pairwise_cons.mp hsorted').2
      exact this.imp (fun h => by simpa [scoreGe] using h)
    have htop : ∀ c ∈ mkCandidates hits, c.score ≤ top.score := by
      intro c hc
      have hc' : c ∈ top :: alt := hperm'.mem_iff.mpr hc
      rcases List.mem_cons.mp hc' with rfl | hcalt
      · exact le_refl _
      · have := (List.pairwise_cons.mp hsorted').1 c hcalt
        simpa [scoreGe] using this
    refine ⟨?_, hperm', haltSorted, htop⟩
    unfold VectorRouter.route
    rw [if_neg (fun h => hq (List.isEmpty_iff.mp h)), if_neg (by simp [hf])]
    set e := st.ensure_task_labels uf 0 with hE
    obtain ⟨s', hs'⟩ := ensure_collection_some st uf 0 s hcol
    rw [← hE] at hs'
    simp only [hs', hm]

/-- Witness for C6: a response with one task-label hit and one resume hit;
the resume hit is filtered out and the task-label hit is chosen. -/
theorem route_vector_processing_witness :
    ¬("hello".data = ([] : List Char)) ∧
    mkCandidates wHits = spec_candidates wHits ∧
    ((activeRouter []).route (fun _ => []) ⟨fun _ => false, Except.ok wHits⟩
        "hello".data 4).2.2 = ⟨3, "job_fit", 0, []⟩ := by
  have h := route_vector_processing (fun _ => []) (activeRouter []) [] (fun _ => false)
    wHits "hello".data 4 rfl rfl (by decide)
  have h0 : mkCandidates wHits = [⟨3, "job_fit", 0⟩] := rfl
  have hm : (mkCandidates wHits).mergeSort scoreGe = ⟨3, "job_fit", 0⟩ :: [] := by
    rw [h0, List.mergeSort_singleton]
  exact ⟨by decide, h.1, (h.2.2 ⟨3, "job_fit", 0⟩ [] hm).1⟩

/-! ## Claim C10 -/

/-- C10: `ingest_resume` and `ingest_job_description` store only the
first 12000 characters as the document body while deriving the id from
the hash of the full text: two texts that agree on their first 12000
characters but hash differently are stored as two distinct documents
with identical stored bodies — under the `resume-` ids for
`ingest_resume` and likewise under the `job-` ids for
`ingest_job_description` — and a text longer than 12000 characters is
stored truncated (the stored body differs from the ingested text). -/
theorem ingest_truncation (sha1hex : HashFn) (st : VectorRouter) (s : Store)
    (t1 t2 : List Char) (hcol : st.collection = some s)
    (htake : t1.take 12000 = t2.take 12000)
    (hhash : ¬(hashId sha1hex t1 = hashId sha1hex t2)) :
    (∃ s2, ((st.ingest_resume sha1hex t1 false).1.ingest_resume sha1hex t2 false).1.collection
        = some s2 ∧
      assocGet s2 ("resume-".data ++ hashId sha1hex t1)
        = some ⟨t1.take 12000, ⟨"resume", none, none⟩⟩ ∧
      assocGet s2 ("resume-".data ++ hashId sha1hex t2)
        = some ⟨t2.take 12000, ⟨"resume", none, none⟩⟩ ∧
      ¬("resume-".data ++ hashId sha1hex t1 = "resume-".data ++ hashId sha1hex t2) ∧
      (12000 < t1.length → ¬(t1.take 12000 = t1))) ∧
    (∃ s3, ((st.ingest_job_description sha1hex t1 false).1.ingest_job_description
          sha1hex t2 false).1.collection = some s3 ∧
      assocGet s3 ("job-".data ++ hashId sha1hex t1)
        = some ⟨t1.take 12000, ⟨"job_desc", none, none⟩⟩ ∧
      assocGet s3 ("job-".data ++ hashId sha1hex t2)
        = some ⟨t2.take 12000, ⟨"job_desc", none, none⟩⟩ ∧
      ¬("job-".data ++ hashId sha1hex t1 = "job-".data ++ hashId sha1hex t2)) := by
  have ht1 : ¬(t1 = []) := by
    intro h
    apply hhash
    have h0 : t2.take 12000 = [] := by rw [← htake, h]; simp
    have hlen := congrArg List.length h0
    rw [List.length_take] at hlen
    simp only [List.length_nil] at hlen
    have ht2 : t2 = [] := by
      have : t2.length = 0 := by omega
      exact List.length_eq_zero.mp this
    rw [h, ht2]
  have ht2 : ¬(t2 = []) := by
    intro h
    apply hhash
    have h0 : t1.take 12000 = [] := by rw [htake, h]; simp
    have hlen := congrArg List.length h0
    rw [List.length_take] at hlen
    simp only [List.length_nil] at hlen
    have ht1' : t1 = [] := by
      have : t1.length = 0 := by omega
      exact List.length_eq_zero.mp this
    rw [h, ht1']
  have hne : ¬(("resume-".data ++ hashId sha1hex t1)
      = ("resume-".data ++ hashId sha1hex t2)) := by
    intro h
    exact hhash (List.append_cancel_left h)
  have e1 : st.ingest_resume sha1hex t1 false
      = ({ st with collection := some (assocSet s ("resume-".data ++ hashId sha1hex t1)
            ⟨t1.take 12000, ⟨"resume", none, none⟩⟩) },
         [ExtCall.upsertDoc ("resume-".data ++ hashId sha1hex t1)]) := by
    unfold VectorRouter.ingest_resume
    rw [if_neg (fun h => ht1 (List.isEmpty_iff.mp h))]
    unfold VectorRouter.upsert1
    rw [hcol]
    rfl
  have e2 : ((st.ingest_resume sha1hex t1 false).1.ingest_resume sha1hex t2
        false).1.collection
      = some (assocSet (assocSet s ("resume-".data ++ hashId sha1hex t1)
            ⟨t1.take 12000, ⟨"resume", none, none⟩⟩)
          ("resume-".data ++ hashId sha1hex t2)
          ⟨t2.take 12000, ⟨"resume", none, none⟩⟩) := by
    rw [e1]
    unfold VectorRouter.ingest_resume
    rw [if_neg (fun h => ht2 (List.isEmpty_iff.mp h))]
    unfold VectorRouter.upsert1
    rfl
  have hneJ : ¬(("job-".data ++ hashId sha1hex t1)
      = ("job-".data ++ hashId sha1hex t2)) := by
    intro h
    exact hhash (List.append_cancel_left h)
  have e1J : st.ingest_job_description sha1hex t1 false
      = ({ st with collection := some (assocSet s ("job-".data ++ hashId sha1hex t1)
            ⟨t1.take 12000, ⟨"job_desc", none, none⟩⟩) },
         [ExtCall.upsertDoc ("job-".data ++ hashId sha1hex t1)]) := by
    unfold VectorRouter.ingest_job_description
    rw [if_neg (fun h => ht1 (List.isEmpty_iff.mp h))]
    unfold VectorRouter.upsert1
    rw [hcol]
    rfl
  have e2J : ((st.ingest_job_description sha1hex t1 false).1.ingest_job_description
        sha1hex t2 false).1.collection
      = some (assocSet (assocSet s ("job-".data ++ hashId sha1hex t1)
            ⟨t1.take 12000, ⟨"job_desc", none, none⟩⟩)
          ("job-".data ++ hashId sha1hex t2)
          ⟨t2.take 12000, ⟨"job_desc", none, none⟩⟩) := by
    rw [e1J]
    unfold VectorRouter.ingest_job_description
    rw [if_neg (fun h => ht2 (List.isEmpty_iff.mp h))]
    unfold VectorRouter.upsert1
    rfl
  refine ⟨⟨_, e2, ?_, ?_, hne, ?_⟩, ⟨_, e2J, ?_, ?_, hneJ⟩⟩
  · rw [assocGet_assocSet_ne _ _ _ _ hne, assocGet_assocSet_self]
  · rw [assocGet_assocSet_self]
  · intro hlong heq
    have hl := congrArg List.length heq
    rw [List.length_take] at hl
    omega
  · rw [assocGet_assocSet_ne _ _ _ _ hneJ, assocGet_assocSet_self]
  · rw [assocGet_assocSet_self]

/-- Witness for C10: with an abstract digest distinguishing the tails,
two 12000-plus-character texts sharing their first 12000 characters land
in two distinct store entries with identical truncated bodies. -/
theorem ingest_truncation_witness :
    ((activeRouter []).collection = some []) ∧
    (List.replicate 12001 'a').take 12000
      = (List.replicate 12000 'a' ++ ['b']).take 12000 ∧
    ¬(hashId (fun t => t.drop 12000) (List.replicate 12001 'a')
        = hashId (fun t => t.drop 12000) (List.replicate 12000 'a' ++ ['b'])) ∧
    (∃ s2, (((activeRouter []).ingest_resume (fun t => t.drop 12000)
            (List.replicate 12001 'a') false).1.ingest_resume (fun t => t.drop 12000)
            (List.replicate 12000 'a' ++ ['b']) false).1.collection = some s2 ∧
      assocGet s2 ("resume-".data
          ++ hashId (fun t => t.drop 12000) (List.replicate 12001 'a'))
        = some ⟨(List.replicate 12001 'a').take 12000, ⟨"resume", none, none⟩⟩ ∧
      assocGet s2 ("resume-".data
          ++ hashId (fun t => t.drop 12000) (List.replicate 12000 'a' ++ ['b']))
        = some ⟨(List.replicate 12000 'a' ++ ['b']).take 12000, ⟨"resume", none, none⟩⟩ ∧
      ¬("resume-".data ++ hashId (fun t => t.drop 12000) (List.replicate 12001 'a')
          = "resume-".data
            ++ hashId (fun t => t.drop 12000) (List.replicate 12000 'a' ++ ['b'])) ∧
      (12000 < (List.replicate 12001 'a').length →
        ¬((List.replicate 12001 'a').take 12000 = List.replicate 12001 'a'))) ∧
    (∃ s3, (((activeRouter []).ingest_job_description (fun t => t.drop 12000)
            (List.replicate 12001 'a') false).1.ingest_job_description
            (fun t => t.drop 12000)
            (List.replicate 12000 'a' ++ ['b']) false).1.collection = some s3 ∧
      assocGet s3 ("job-".data
          ++ hashId (fun t => t.drop 12000) (List.replicate 12001 'a'))
        = some ⟨(List.replicate 12001 'a').take 12000, ⟨"job_desc", none, none⟩⟩ ∧
      assocGet s3 ("job-".data
          ++ hashId (fun t => t.drop 12000) (List.replicate 12000 'a' ++ ['b']))
        = some ⟨(List.replicate 12000 'a' ++ ['b']).take 12000, ⟨"job_desc", none, none⟩⟩ ∧
      ¬("job-".data ++ hashId (fun t => t.drop 12000) (List.replicate 12001 'a')
          = "job-".data
            ++ hashId (fun t => t.drop 12000) (List.replicate 12000 'a' ++ ['b']))) := by
  have h1 : (activeRouter []).collection = some [] := rfl
  have h2 : (List.replicate 12001 'a').take 12000 = List.replicate 12000 'a' := by
    rw [List.take_replicate]
    all_goals norm_num
  have h3 : (List.replicate 12000 'a' ++ ['b']).take 12000 = List.replicate 12000 'a' :=
    List.take_left' (List.length_replicate 12000 'a')
  have htake := h2.trans h3.symm
  have h4 : hashId (fun t => t.drop 12000) (List.replicate 12001 'a') = ['a'] := by
    unfold hashId
    dsimp only
    rw [List.drop_replicate]
    all_goals norm_num
  have h5 : hashId (fun t => t.drop 12000) (List.replicate 12000 'a' ++ ['b'])
      = ['b'] := by
    unfold hashId
    dsimp only
    rw [List.drop_left' (List.length_replicate 12000 'a')]
    all_goals decide
  have hhash : ¬(hashId (fun t => t.drop 12000) (List.replicate 12001 'a')
      = hashId (fun t => t.drop 12000) (List.replicate 12000 'a' ++ ['b'])) := by
    rw [h4, h5]
    decide
  obtain ⟨hres, hjob⟩ :=
    ingest_truncation (fun t => t.drop 12000) (activeRouter []) [] _ _ h1 htake hhash
  exact ⟨h1, htake, hhash, hres, hjob⟩

/-! ## Claim C1 -/

theorem mem_mkCandidates (hits : List QueryHit) (c : Cand)
    (hc : c ∈ mkCandidates hits) :
    ∃ h ∈ hits, ∃ m, h.meta = some m ∧ m.doc_type = "task_label" ∧
      c.task_index = m.task_index.getD 0 := by
  unfold mkCandidates at hc
  rcases List.mem_filterMap.mp hc with ⟨h, hh, hsome⟩
  cases hm : h.meta with
  | none =>
    simp only [hm] at hsome
    exact Option.noConfusion hsome
  | some m =>
    simp only [hm] at hsome
    by_cases hd : m.doc_type = "task_label"
    · rw [if_pos hd] at hsome
      exact ⟨h, hh, m, hm, hd, by rw [← Option.some.inj hsome]⟩
    · rw [if_neg hd] at hsome
      cases hsome

theorem routeKw_index (st : VectorRouter) (q : List Char) :
    (st.routeKw q).2.task_index ∈ ({0, 1, 2, 3} : Finset Int) := by
  rw [routeKw_spec]
  unfold sub_keyword_route
  dsimp only
  split_ifs <;> decide

/-- C1: for every non-empty query, `route` is a total function in the
model (the source's two exception sites — the vector query and the
upserts — are absorbed into keyword fallback and a single retry, so no
exception escapes), and the returned `task_index` lies in {0,1,2,3}
whenever the nearest-neighbor response carries well-formed metadata, as
every response drawn from a store written by this router does.  Scores
are rationals in the model, hence finite. -/
theorem route_task_index_valid (sha1hex : HashFn) (st : VectorRouter)
    (env : RouteEnv) (q : List Char) (k : Nat) (hq : ¬(q = []))
    (hwf : HitsOK env.qRes) :
    (st.route sha1hex env q k).2.2.task_index ∈ ({0, 1, 2, 3} : Finset Int) := by
  unfold VectorRouter.route
  rw [if_neg (fun h => hq (List.isEmpty_iff.mp h))]
  by_cases hf : st.fallback_keyword = true
  · rw [if_pos hf]
    simpa using routeKw_index st q
  · rw [if_neg hf]
    set e := st.ensure_task_labels env.uFail 0 with hE
    cases hc : e.1.collection with
    | none => simpa [hc] using routeKw_index _ q
    | some s =>
      cases hr : env.qRes with
      | error u => simpa [hc, hr] using routeKw_index _ q
      | ok hits =>
        cases hm : (mkCandidates hits).mergeSort scoreGe with
        | nil =>
          simp only [hc, hr, hm]
          decide
        | cons top alt =>
          simp only [hc, hr, hm]
          have htop : top ∈ mkCandidates hits := by
            have hmem : top ∈ (mkCandidates hits).mergeSort scoreGe := by
              rw [hm]; exact List.mem_cons_self _ _
            exact (List.mergeSort_perm _ _).mem_iff.mp hmem
          rcases mem_mkCandidates hits top htop with ⟨h, hh, m, hmeta, hd, hidx⟩
          have hin := hwf hits hr h hh m hmeta hd
          simpa [hidx] using hin

/-- Witness for C1 on the vector path at a concrete instance and
response. -/
theorem route_task_index_valid_witness :
    ((activeRouter []).route (fun _ => []) ⟨fun _ => false, Except.ok wHits⟩
        "hi".data 4).2.2.task_index ∈ ({0, 1, 2, 3} : Finset Int) :=
  route_task_index_valid (fun _ => []) (activeRouter [])
    ⟨fun _ => false, Except.ok wHits⟩ "hi".data 4 (by decide)
    (by
      intro hits heq h hh m hm
      cases heq
      intro hd
      fin_cases hh
      · injection hm with hm2
        subst hm2
        decide
      · injection hm with hm2
        subst hm2
        exact absurd hd (by decide))

/-! ## Counter lemmas for claim C9 -/

theorem bumpLabel_cons_ne (a : String × Nat) (t : List (String × Nat)) (l : String)
    (ha : ¬(a.1 = l)) : bumpLabel (a :: t) l = a :: bumpLabel t l := by
  unfold bumpLabel assocGet assocSet
  simp only [List.find?_cons, List.any_cons, decide_eq_false ha, Bool.false_or,
    List.map_cons, if_neg ha]
  by_cases hp : t.any (fun p => decide (p.1 = l)) = true
  · simp [hp]
  · simp [hp]

theorem bumpLabel_cons_eq (a : String × Nat) (t : List (String × Nat)) (l : String)
    (ha : a.1 = l) (hnt : ¬(l ∈ t.map Prod.fst)) :
    bumpLabel (a :: t) l = (l, a.2 + 1) :: t := by
  have hany : (a :: t).any (fun p => decide (p.1 = l)) = true := by
    simp [List.any_cons, ha]
  have hget : assocGet (a :: t) l = some a.2 := by
    unfold assocGet
    simp [List.find?_cons, ha]
  unfold bumpLabel
  rw [hget, assocSet_of_any _ _ _ hany, List.map_cons, if_pos ha,
    map_replace_id t l _ (fun p hp hpl => absurd (List.mem_map.mpr ⟨p, hp, hpl⟩) hnt)]
  rfl

theorem bumpLabel_sum (d : List (String × Nat)) (l : String)
    (hnd : (d.map Prod.fst).Nodup) :
    sumCounts (bumpLabel d l) = sumCounts d + 1 := by
  induction d with
  | nil => rfl
  | cons a t ih =>
    simp only [List.map_cons, List.nodup_cons] at hnd
    by_cases ha : a.1 = l
    · have hnt : ¬(l ∈ t.map Prod.fst) := by rw [← ha]; exact hnd.1
      rw [bumpLabel_cons_eq a t l ha hnt]
      unfold sumCounts
      simp only [List.map_cons, List.sum_cons]
      omega
    · rw [bumpLabel_cons_ne a t l ha]
      unfold sumCounts at ih ⊢
      simp only [List.map_cons, List.sum_cons]
      rw [ih hnd.2]
      omega

theorem bumpLabel_keys (d : List (String × Nat)) (l : String) :
    (bumpLabel d l).map Prod.fst = d.map Prod.fst ∨
    (¬(l ∈ d.map Prod.fst) ∧
      (bumpLabel d l).map Prod.fst = d.map Prod.fst ++ [l]) := by
  unfold bumpLabel
  by_cases hp : d.any (fun p => decide (p.1 = l)) = true
  · left
    rw [assocSet_of_any _ _ _ hp]
    generalize ((assocGet d l).getD 0) + 1 = v
    clear hp
    induction d with
    | nil => rfl
    | cons a t ih =>
      simp only [List.map_cons, ih]
      congr 1
      by_cases ha : a.1 = l
      · rw [if_pos ha]; exact ha.symm
      · rw [if_neg ha]
  · right
    refine ⟨fun hm => hp ((assoc_any_iff d l).mpr hm), ?_⟩
    rw [assocSet_of_not_any _ _ _ (Bool.eq_false_iff.mpr hp), List.map_append]
    rfl

theorem countsWF_bump (d : List (String × Nat)) (l : String) (h : CountsWF d) :
    CountsWF (bumpLabel d l) := by
  obtain ⟨hnd, h1, h2, h3, h4⟩ := h
  unfold CountsWF
  rcases bumpLabel_keys d l with hk | ⟨hni, hk⟩
  · rw [hk]
    exact ⟨hnd, h1, h2, h3, h4⟩
  · rw [hk]
    refine ⟨?_, List.mem_append_left _ h1, List.mem_append_left _ h2,
      List.mem_append_left _ h3, List.mem_append_left _ h4⟩
    rw [List.nodup_append]
    refine ⟨hnd, List.nodup_singleton l, fun x hx hxl => ?_⟩
    rw [List.mem_singleton] at hxl
    subst hxl
    exact hni hx

theorem upsert1_counts (st : VectorRouter) (f : Bool) (id : List Char)
    (d : StoreDoc) : (st.upsert1 f id d).1.route_counts = st.route_counts := by
  unfold VectorRouter.upsert1
  cases st.collection <;> cases f <;> simp

theorem upsertLabelLoop_counts (uFail : Nat → Bool)
    (ls : List (Int × String × String)) :
    ∀ st n, (upsertLabelLoop uFail st n ls).1.route_counts = st.route_counts := by
  induction ls with
  | nil => intro st n; rfl
  | cons a rest ih =>
    intro st n
    obtain ⟨idx, label, desc⟩ := a
    simp only [upsertLabelLoop]
    rw [ih _ _, upsert1_counts]

theorem ensure_counts (st : VectorRouter) (uFail : Nat → Bool) (n : Nat) :
    (st.ensure_task_labels uFail n).1.route_counts = st.route_counts := by
  unfold VectorRouter.ensure_task_labels
  by_cases hf : st.fallback_keyword = true
  · rw [if_pos hf]
  · rw [if_neg hf]
    exact upsertLabelLoop_counts uFail TASK_LABELS st n

theorem ingestR_counts (st : VectorRouter) (sha1hex : HashFn) (t : List Char)
    (f : Bool) : (st.ingest_resume sha1hex t f).1.route_counts = st.route_counts := by
  unfold VectorRouter.ingest_resume
  by_cases he : t.isEmpty = true
  · rw [if_pos he]
  · rw [if_neg he]; exact upsert1_counts st f _ _

theorem ingestJ_counts (st : VectorRouter) (sha1hex : HashFn) (t : List Char)
    (f : Bool) :
    (st.ingest_job_description sha1hex t f).1.route_counts = st.route_counts := by
  unfold VectorRouter.ingest_job_description
  by_cases he : t.isEmpty = true
  · rw [if_pos he]
  · rw [if_neg he]; exact upsert1_counts st f _ _

theorem addQ_counts (st : VectorRouter) (sha1hex : HashFn) (t : List Char)
    (f : Bool) : (st.add_query_history sha1hex t f).1.route_counts = st.route_counts := by
  unfold VectorRouter.add_query_history
  by_cases he : t.isEmpty = true
  · rw [if_pos he]
  · rw [if_neg he]; exact upsert1_counts st f _ _

theorem route_counts_sum (sha1hex : HashFn) (st : VectorRouter) (env : RouteEnv)
    (q : List Char) (k : Nat) (h : CountsOK st) :
    CountsOK (st.route sha1hex env q k).1 ∧
    sumCounts (st.route sha1hex env q k).1.route_counts
      = sumCounts st.route_counts + (if q.isEmpty = true then 0 else 1) := by
  by_cases hq : q.isEmpty = true
  · unfold VectorRouter.route
    rw [if_pos hq]
    exact ⟨h, by simp [hq]⟩
  · unfold VectorRouter.route
    rw [if_neg hq]
    by_cases hf : st.fallback_keyword = true
    · rw [if_pos hf, routeKw_spec]
      refine ⟨countsWF_bump _ _ h, ?_⟩
      simp [bumpLabel_sum _ _ h.1, hq]
    · rw [if_neg hf]
      set e := st.ensure_task_labels env.uFail 0 with hE
      have hec : e.1.route_counts = st.route_counts := ensure_counts st env.uFail 0
      cases hc : e.1.collection with
      | none =>
        simp only [hc, routeKw_spec]
        refine ⟨?_, ?_⟩
        · show CountsWF (bumpLabel e.1.route_counts _)
          rw [hec]
          exact countsWF_bump _ _ h
        · show sumCounts (bumpLabel e.1.route_counts _) = _
          rw [hec, bumpLabel_sum _ _ h.1]
          simp [hq]
      | some s =>
        cases hr : env.qRes with
        | error u =>
          simp only [hc, hr, routeKw_spec]
          refine ⟨?_, ?_⟩
          · show CountsWF (bumpLabel e.1.route_counts _)
            rw [hec]
            exact countsWF_bump _ _ h
          · show sumCounts (bumpLabel e.1.route_counts _) = _
            rw [hec, bumpLabel_sum _ _ h.1]
            simp [hq]
        | ok hits =>
          cases hm : (mkCandidates hits).mergeSort scoreGe with
          | nil =>
            simp only [hc, hr, hm]
            refine ⟨?_, ?_⟩
            · show CountsWF (bumpLabel e.1.route_counts "analysis")
              rw [hec]
              exact countsWF_bump _ _ h
            · show sumCounts (bumpLabel e.1.route_counts "analysis") = _
              rw [hec, bumpLabel_sum _ _ h.1]
              simp [hq]
          | cons top alt =>
            simp only [hc, hr, hm]
            have haq : (e.1.add_query_history sha1hex q (env.uFail e.2.1)).1.route_counts
                = st.route_counts := by
              rw [addQ_counts, hec]
            refine ⟨?_, ?_⟩
            · show CountsWF (bumpLabel
                (e.1.add_query_history sha1hex q (env.uFail e.2.1)).1.route_counts top.label)
              rw [haq]
              exact countsWF_bump _ _ h
            · show sumCounts (bumpLabel
                (e.1.add_query_history sha1hex q (env.uFail e.2.1)).1.route_counts top.label) = _
              rw [haq, bumpLabel_sum _ _ h.1]
              simp [hq]

theorem stepOp_counts (sha1hex : HashFn) (st : VectorRouter) (op : Op)
    (h : CountsOK st) :
    CountsOK (stepOp sha1hex st op) ∧
    sumCounts (stepOp sha1hex st op).route_counts
      = sumCounts st.route_counts + (if isRouteOp op = true then 1 else 0) := by
  cases op with
  | opIngestResume t f =>
    refine ⟨?_, by simp [stepOp, isRouteOp, ingestR_counts]⟩
    unfold CountsOK
    simp only [stepOp, ingestR_counts]
    exact h
  | opIngestJob t f =>
    refine ⟨?_, by simp [stepOp, isRouteOp, ingestJ_counts]⟩
    unfold CountsOK
    simp only [stepOp, ingestJ_counts]
    exact h
  | opAddQuery t f =>
    refine ⟨?_, by simp [stepOp, isRouteOp, addQ_counts]⟩
    unfold CountsOK
    simp only [stepOp, addQ_counts]
    exact h
  | opEnsureLabels u =>
    refine ⟨?_, by simp [stepOp, isRouteOp, ensure_counts]⟩
    unfold CountsOK
    simp only [stepOp, ensure_counts]
    exact h
  | opRoute q u r k =>
    obtain ⟨h1, h2⟩ := route_counts_sum sha1hex st ⟨u, r⟩ q k h
    refine ⟨h1, ?_⟩
    rw [stepOp, h2]
    by_cases hq : q.isEmpty = true <;> simp [isRouteOp, hq]
  | opStats => exact ⟨h, by simp [stepOp, isRouteOp]⟩
  | opBackend => exact ⟨h, by simp [stepOp, isRouteOp]⟩

theorem runOps_counts (sha1hex : HashFn) (ops : List Op) :
    ∀ st, CountsOK st →
      sumCounts (runOps sha1hex st ops).route_counts
        = sumCounts st.route_counts + routeCount ops := by
  induction ops with
  | nil => intro st h; simp [runOps, routeCount]
  | cons o rest ih =>
    intro st h
    obtain ⟨h1, h2⟩ := stepOp_counts sha1hex st o h
    simp only [runOps, List.foldl_cons, routeCount, List.countP_cons] at *
    rw [ih _ h1, h2]
    by_cases ho : isRouteOp o = true <;> simp [ho] <;> omega

theorem init_router_ok_cases (env : InitEnv) (st : VectorRouter)
    (h : init_router env = Except.ok st) :
    st = stubRouter ∨ ∃ s, st = activeRouter s := by
  unfold init_router at h
  by_cases hca : (!env.chromaAvailable) = true
  · rw [if_pos hca] at h
    cases h
  · rw [if_neg hca] at h
    by_cases hcl : (!env.clientObtained) = true
    · rw [if_pos hcl] at h
      left
      exact (Except.ok.inj h).symm
    · rw [if_neg hcl] at h
      cases hco : env.collOutcome with
      | ok s =>
        rw [hco] at h
        right
        exact ⟨s, (Except.ok.inj h).symm⟩
      | error e =>
        simp only [hco] at h
        by_cases h1 : (e.hasTypeTenant && !env.altClientOk) = true
        · rw [if_pos h1] at h
          left
          exact (Except.ok.inj h).symm
        · rw [if_neg h1] at h
          by_cases h2 : e.hasConflictName = true
          · rw [if_pos h2] at h
            by_cases h3 : env.recreateOk = true
            · rw [if_pos h3] at h
              right
              exact ⟨[], (Except.ok.inj h).symm⟩
            · rw [if_neg h3] at h
              cases h
          · rw [if_neg h2] at h
            cases h

theorem init_router_counts (env : InitEnv) (st : VectorRouter)
    (h : init_router env = Except.ok st) : st.route_counts = initCounts := by
  rcases init_router_ok_cases env st h with rfl | ⟨s, rfl⟩ <;> rfl

/-! ## Claim C9 -/

/-- C9: route counting is conservative — starting from any successfully
constructed router, after any call sequence the values of the `stats()`
mapping sum to exactly the number of completed `route` calls with a
non-empty query; each such call (including vector-to-keyword failover
retries) increments exactly one label's counter, and no other call
touches the counters. -/
theorem stats_sum_counts (sha1hex : HashFn) (env : InitEnv) (st : VectorRouter)
    (ops : List Op) (hinit : init_router env = Except.ok st) :
    sumCounts (runOps sha1hex st ops).stats = routeCount ops := by
  have hc : st.route_counts = initCounts := init_router_counts env st hinit
  have hwf : CountsOK st := by
    unfold CountsOK CountsWF
    rw [hc]
    exact ⟨by decide, by decide, by decide, by decide, by decide⟩
  have h0 : sumCounts st.route_counts = 0 := by rw [hc]; rfl
  unfold VectorRouter.stats
  rw [runOps_counts sha1hex ops st hwf, h0]
  omega

/-- Witness for C9: two non-empty route calls and one ingest from a
freshly constructed keyword-mode instance give total count 2. -/
theorem stats_sum_counts_witness :
    sumCounts (runOps (fun _ => []) stubRouter
      [Op.opRoute "fit".data (fun _ => false) (Except.error ()) 4,
       Op.opIngestResume "abc".data false,
       Op.opRoute "hello".data (fun _ => false) (Except.error ()) 4]).stats = 2 :=
  (stats_sum_counts (fun _ => []) ⟨true, false, Except.ok [], true, true⟩ stubRouter
    [Op.opRoute "fit".data (fun _ => false) (Except.error ()) 4,
     Op.opIngestResume "abc".data false,
     Op.opRoute "hello".data (fun _ => false) (Except.error ()) 4] rfl).trans
    (by decide)

end VocaResume
